import Mathlib

/-!
Verification of the SaudAI relay server (streaming NDJSON aggregator,
non-streaming shape extractor, and the request gateway routes) against its
natural-language specification.

Strings are modelled as `List Char` (one element per code point, which is the
granularity at which the JavaScript code operates after `TextDecoder` has
reassembled multi-byte sequences).  JavaScript `JSON.parse` is modelled by the
executable `jsonParse` below; `JSON` values by the inductive `Json`.
-/

/-- The whitespace characters relevant to JavaScript string trimming and JSON
parsing (space, tab, newline, carriage return). -/
def isWsChar (c : Char) : Bool :=
  c = ' ' || c = '\t' || c = '\n' || c = '\r'

/-- Drop trailing whitespace (model of the suffix half of JS trim). -/
def dropEndWs (l : List Char) : List Char :=
  (l.reverse.dropWhile isWsChar).reverse

/-- Model of JavaScript `String.prototype.trim`. -/
def trimL (l : List Char) : List Char :=
  dropEndWs (l.dropWhile isWsChar)

/-- Model of JavaScript `split("\n")`: the resulting segments, in order.  The
result is always non-empty and the last element is the text after the final
newline (possibly empty). -/
def splitNL : List Char → List (List Char)
  | [] => [[]]
  | c :: rest =>
      match splitNL rest with
      | [] => [[]]
      | h :: t => if c = '\n' then [] :: h :: t else (c :: h) :: t

/-- Complete lines / remainder view of newline splitting: `splitCR l` returns
the pair (list of newline-terminated lines of `l`, text after the last
newline). -/
def splitCR : List Char → List (List Char) × List Char
  | [] => ([], [])
  | c :: rest =>
      if c = '\n' then ([] :: (splitCR rest).1, (splitCR rest).2)
      else
        match splitCR rest with
        | ([], r) => ([], c :: r)
        | (h :: t, r) => ((c :: h) :: t, r)

/-- Join a list of lines with newline separators (inverse of line splitting
for newline-free lines). -/
def joinNL : List (List Char) → List Char
  | [] => []
  | [l] => l
  | l :: ls => l ++ '\n' :: joinNL ls

/-- Does `l` start with `p`? (used to model JS `String.prototype.includes`). -/
def startsWithL : List Char → List Char → Bool
  | _, [] => true
  | [], _ :: _ => false
  | c :: cs, p :: ps => c = p && startsWithL cs ps

/-- Model of JavaScript `String.prototype.includes`. -/
def includesSub : List Char → List Char → Bool
  | [], pat => startsWithL [] pat
  | c :: cs, pat => startsWithL (c :: cs) pat || includesSub cs pat

/-- JSON values as produced by `JSON.parse` (numbers restricted to integers,
which covers every numeric field the server ever inspects). -/
inductive Json where
  | null
  | bool (b : Bool)
  | num (n : Int)
  | str (s : List Char)
  | arr (elems : List Json)
  | obj (fields : List (List Char × Json))
deriving Repr

/-- JavaScript truthiness of a JSON value. -/
def Json.truthy : Json → Bool
  | .null => false
  | .bool b => b
  | .num n => decide (n ≠ 0)
  | .str s => decide (s ≠ [])
  | .arr _ => true
  | .obj _ => true

/-- Is the value a string (JS `typeof v === "string"`)? -/
def Json.isStr : Json → Bool
  | .str _ => true
  | _ => false

/-- The underlying characters of a string value (empty for non-strings). -/
def Json.strD : Json → List Char
  | .str s => s
  | _ => []

/-- Property lookup in an object field list.  `JSON.parse` resolves duplicate
keys to the last occurrence, so the lookup returns the last match. -/
def objGet : List (List Char × Json) → List Char → Option Json
  | [], _ => none
  | (k, v) :: rest, key =>
      match objGet rest key with
      | some r => some r
      | none => if k = key then some v else none

/-- Set (or add) a field on an object field list; with last-match lookup an
appended pair shadows earlier occurrences, matching JS assignment. -/
def objSet (fields : List (List Char × Json)) (key : List Char) (v : Json) :
    List (List Char × Json) :=
  fields ++ [(key, v)]

/-- Property access on a JSON value (non-objects have no properties). -/
def jget : Json → List Char → Option Json
  | .obj fields, key => objGet fields key
  | _, _ => none

/-- Optional-chained property access (`o?.key`). -/
def ojget (o : Option Json) (key : List Char) : Option Json :=
  o.bind (fun j => jget j key)

/-- Optional-chained first-element access (`o?.[0]`). -/
def oidx0 (o : Option Json) : Option Json :=
  o.bind (fun j => match j with | .arr (x :: _) => some x | _ => none)

/-- JavaScript `a || b` on optional values: the first operand if truthy,
otherwise the second. -/
def jsOr (a b : Option Json) : Option Json :=
  match a with
  | some v => if v.truthy then some v else b
  | none => b

/-!
## A model of JavaScript `JSON.parse`

Fuel-indexed recursive-descent parser over `List Char`.  It accepts the JSON
constructs the server's payloads use (objects, arrays, strings with the common
escapes, integer numbers, literals) and rejects everything else, including
trailing garbage, exactly as `JSON.parse` raises on malformed input.
-/

/-- Skip JSON insignificant whitespace. -/
def skipWs : List Char → List Char
  | [] => []
  | c :: rest => if isWsChar c then skipWs rest else c :: rest

/-- Consume an expected literal tail (e.g. the characters after the first
letter of true / false / null); `none` if the input does not start with it. -/
def eatLit : List Char → List Char → Option (List Char)
  | input, [] => some input
  | [], _ :: _ => none
  | c :: cs, p :: ps => if c = p then eatLit cs ps else none

/-- Parse the body of a JSON string after the opening quote, returning the
decoded characters and the input after the closing quote. -/
def parseStrBody : Nat → List Char → Option (List Char × List Char)
  | 0, _ => none
  | _ + 1, [] => none
  | fuel + 1, c :: rest =>
      if c = '"' then some ([], rest)
      else if c = '\\' then
        match rest with
        | [] => none
        | e :: rest2 =>
            let mapped : Option Char :=
              if e = '"' then some '"'
              else if e = '\\' then some '\\'
              else if e = '/' then some '/'
              else if e = 'n' then some '\n'
              else if e = 't' then some '\t'
              else if e = 'r' then some '\r'
              else if e = 'b' then some (Char.ofNat 8)
              else if e = 'f' then some (Char.ofNat 12)
              else none
            match mapped with
            | none => none
            | some m =>
                match parseStrBody fuel rest2 with
                | some (s, r) => some (m :: s, r)
                | none => none
      else if c.toNat < 32 then none
      else
        match parseStrBody fuel rest with
        | some (s, r) => some (c :: s, r)
        | none => none

/-- Longest digit span at the head of the input. -/
def digitSpan : List Char → List Char × List Char
  | [] => ([], [])
  | c :: rest =>
      if c.isDigit then
        let p := digitSpan rest
        (c :: p.1, p.2)
      else ([], c :: rest)

/-- Numeric value of a digit list. -/
def digitsVal (ds : List Char) : Nat :=
  ds.foldl (fun a c => a * 10 + (c.toNat - 48)) 0

/-- Parse a JSON integer number with optional leading minus. -/
def parseNum (input : List Char) : Option (Json × List Char) :=
  match input with
  | '-' :: rest =>
      let p := digitSpan rest
      if p.1 = [] then none else some (.num (-(digitsVal p.1 : Int)), p.2)
  | _ =>
      let p := digitSpan input
      if p.1 = [] then none else some (.num (digitsVal p.1 : Int), p.2)

mutual

/-- Parse one JSON value (after skipping leading whitespace), returning the
value and the unconsumed input. -/
def parseVal : Nat → List Char → Option (Json × List Char)
  | 0, _ => none
  | fuel + 1, input =>
      match skipWs input with
      | [] => none
      | c :: rest =>
          if c = '"' then
            match parseStrBody (fuel + 1) rest with
            | some (s, r) => some (.str s, r)
            | none => none
          else if c = '\x7b' then
            match skipWs rest with
            | '\x7d' :: r2 => some (.obj [], r2)
            | other =>
                match parseFields fuel other with
                | some (fs, r) => some (.obj fs, r)
                | none => none
          else if c = '[' then
            match skipWs rest with
            | ']' :: r2 => some (.arr [], r2)
            | other =>
                match parseElems fuel other with
                | some (xs, r) => some (.arr xs, r)
                | none => none
          else if c = 't' then
            match eatLit rest (['r', 'u', 'e']) with
            | some r => some (.bool true, r)
            | none => none
          else if c = 'f' then
            match eatLit rest (['a', 'l', 's', 'e']) with
            | some r => some (.bool false, r)
            | none => none
          else if c = 'n' then
            match eatLit rest (['u', 'l', 'l']) with
            | some r => some (.null, r)
            | none => none
          else parseNum (c :: rest)

/-- Parse the fields of an object after the opening brace (first field
expected next), up to and including the closing brace. -/
def parseFields : Nat → List Char → Option (List (List Char × Json) × List Char)
  | 0, _ => none
  | fuel + 1, input =>
      match skipWs input with
      | '"' :: rest =>
          match parseStrBody (fuel + 1) rest with
          | none => none
          | some (key, r1) =>
              match skipWs r1 with
              | ':' :: r2 =>
                  match parseVal fuel r2 with
                  | none => none
                  | some (v, r3) =>
                      match skipWs r3 with
                      | ',' :: r4 =>
                          match parseFields fuel r4 with
                          | some (fs, r5) => some ((key, v) :: fs, r5)
                          | none => none
                      | '\x7d' :: r4 => some ([(key, v)], r4)
                      | _ => none
              | _ => none
      | _ => none

/-- Parse the elements of an array after the opening bracket (first element
expected next), up to and including the closing bracket. -/
def parseElems : Nat → List Char → Option (List Json × List Char)
  | 0, _ => none
  | fuel + 1, input =>
      match parseVal fuel input with
      | none => none
      | some (v, r1) =>
          match skipWs r1 with
          | ',' :: r2 =>
              match parseElems fuel r2 with
              | some (xs, r3) => some (v :: xs, r3)
              | none => none
          | ']' :: r2 => some ([v], r2)
          | _ => none

end

/-- Model of JavaScript `JSON.parse`: parse one document and require that only
whitespace follows it; `none` models a thrown `SyntaxError`. -/
def jsonParse (s : List Char) : Option Json :=
  match parseVal (2 * s.length + 8) s with
  | some (j, rest) => if skipWs rest = [] then some j else none
  | none => none

/-!
## The streaming response aggregator (src/unnamed/part_002, callDeepSeekStream)

The reader loop, the rolling line buffer, the per-line decode, the final
leftover decode and the trim are translated line by line.  A byte stream is
modelled as the list of decoded text chunks handed back by the reader.
-/

/-- Key names used by the fragment decode. -/
def msgKey : List Char := "message".toList

/-- The content field key. -/
def contentKey : List Char := "content".toList

/-- Text contributed by one decoded fragment:
`if (j?.message?.content && typeof j.message.content === "string")
   finalText += j.message.content` — the thinking field and the done flag are
never inspected. -/
def fragText (j : Json) : List Char :=
  match ojget (ojget (some j) msgKey) contentKey with
  | some v => if v.truthy && v.isStr then v.strD else []
  | none => []

/-- Process one complete line of the buffer: trim it, skip it when blank,
decode it, and append the fragment text on success; a decode failure
contributes nothing (the catch block skips non-JSON chunks). -/
def processLine (acc : List Char) (line : List Char) : List Char :=
  let trimmed := trimL line
  if trimmed = [] then acc
  else
    match jsonParse trimmed with
    | some j => acc ++ fragText j
    | none => acc

/-- One iteration of the reader loop: append the chunk to the buffer, split on
newlines, pop the remainder back into the buffer, and process each complete
line. -/
def streamStep (st : List Char × List Char) (chunk : List Char) :
    List Char × List Char :=
  ((splitNL (st.2 ++ chunk)).dropLast.foldl processLine st.1,
   (splitNL (st.2 ++ chunk)).getLastD [])

/-- After the reader reports done: one final decode attempt of the trimmed
leftover buffer (non-fatal on failure), then the final trim of the
accumulated text. -/
def streamFinish (st : List Char × List Char) : List Char :=
  trimL
    (if trimL st.2 = [] then st.1
     else
       match jsonParse (trimL st.2) with
       | some j => st.1 ++ fragText j
       | none => st.1)

/-- Function `callDeepSeekStream`, body-consumption part: run the reader loop over all
chunks, then the final leftover decode and trim. -/
def callDeepSeekStreamAgg (chunks : List (List Char)) : List Char :=
  streamFinish (chunks.foldl streamStep ([], []))

/-!
## The non-streaming path (src/unnamed/part_002, callDeepSeekSync)
-/

/-- Decode one already-trimmed non-blank line and append its fragment text
(the loop body of the `callDeepSeekSync` NDJSON branch). -/
def decodeTrimmedLine (acc line : List Char) : List Char :=
  match jsonParse line with
  | some j => acc ++ fragText j
  | none => acc

/-- One-pass NDJSON decode of a whole body (`callDeepSeekSync`, NDJSON
branch): split on newlines, trim each line, drop blank lines, decode each
line, concatenate the fragment texts, and trim the result. -/
def syncNdjsonText (text : List Char) : List Char :=
  trimL
    ((((splitNL text).map trimL).filter (fun l => l ≠ [])).foldl
      decodeTrimmedLine [])

/-- The output-text field key. -/
def outputTextKey : List Char := "output_text".toList

/-- The output field key. -/
def outputKey : List Char := "output".toList

/-- The choices field key. -/
def choicesKey : List Char := "choices".toList

/-- The text field key. -/
def textKey : List Char := "text".toList

/-- The optional chain `json?.output?.[0]?.content?.[0]?.text`. -/
def chainOutputText (j : Json) : Option Json :=
  ojget (oidx0 (ojget (oidx0 (ojget (some j) outputKey)) contentKey)) textKey

/-- The optional chain `json?.choices?.[0]?.message?.content`. -/
def chainChoicesContent (j : Json) : Option Json :=
  ojget (ojget (oidx0 (ojget (some j) choicesKey)) msgKey) contentKey

/-- Single-document extraction of `callDeepSeekSync`: try
`json.message.content` (string), then `json.output_text` (string), then
`json.output[0].content[0].text` (truthy), then
`json.choices[0].message.content` (truthy), and otherwise fall back to the
raw body text; an unparsable body is returned raw as well. -/
def callDeepSeekSyncExtract (text : List Char) : Json :=
  match jsonParse text with
  | none => .str text
  | some json =>
      match ojget (ojget (some json) msgKey) contentKey with
      | some (.str s) => .str s
      | _ =>
          match jget json outputTextKey with
          | some (.str s) => .str s
          | _ =>
              match chainOutputText json with
              | some v =>
                  if v.truthy then v
                  else
                    match chainChoicesContent json with
                    | some w => if w.truthy then w else .str text
                    | none => .str text
              | none =>
                  match chainChoicesContent json with
                  | some w => if w.truthy then w else .str text
                  | none => .str text

/-- The content-type marker for the NDJSON branch. -/
def ndjsonPat : List Char := "ndjson".toList

/-- The body marker for the NDJSON branch: a newline followed by an opening
brace. -/
def nlBracePat : List Char := "\n\x7b".toList

/-- Body interpretation of `callDeepSeekSync`: the NDJSON line-by-line branch
is taken iff the content type contains "ndjson" or the body contains a newline
followed by an opening brace; the flag in the result records which branch
ran. -/
def callDeepSeekSyncBody (contentType text : List Char) : Bool × Json :=
  if includesSub contentType ndjsonPat || includesSub text nlBracePat then
    (true, .str (syncNdjsonText text))
  else
    (false, callDeepSeekSyncExtract text)

/-!
## The request gateway

`JsVal` models the possible JSON values of the inbound message field;
`FetchResult` models the three ways the outbound fetch can resolve (a
response, an abort raised by the cancellation timer, a network failure).
-/

/-- A JavaScript value as found in the parsed request body. -/
inductive JsVal where
  | undef
  | nullV
  | boolV (b : Bool)
  | numV (n : Int)
  | strV (s : List Char)
  | objV
deriving DecidableEq, Repr

/-- JavaScript truthiness of a request-body value. -/
def JsVal.truthy : JsVal → Bool
  | .undef => false
  | .nullV => false
  | .boolV b => b
  | .numV n => decide (n ≠ 0)
  | .strV s => decide (s ≠ [])
  | .objV => true

/-- JS `typeof v === "string"`. -/
def JsVal.isString : JsVal → Bool
  | .strV _ => true
  | _ => false

/-- How the outbound backend fetch resolves.  The cancellation timer firing
before completion surfaces as the fetch promise rejecting with an AbortError,
which is the `abortError` case; `response` carries the status, the body text
(read for diagnostics) and the decoded body chunks (read by the stream
loop). -/
inductive FetchResult where
  | response (ok : Bool) (status : Nat) (bodyText : List Char)
      (chunks : List (List Char))
  | abortError
  | networkError
deriving DecidableEq, Repr

/-- Result of an aggregator call: a returned string or a thrown error
carrying its name and message. -/
inductive CallOutcome where
  | value (text : List Char)
  | thrown (name : List Char) (msg : List Char)
deriving DecidableEq, Repr

/-- Decimal rendering of a natural number (for template literals). -/
def natChars (n : Nat) : List Char := Nat.toDigits 10 n

/-- One chat turn of the prompt. -/
structure ChatTurn where
  role : List Char
  content : List Char
deriving DecidableEq, Repr

/-- The fixed SaudAI persona prompt (src/unnamed/part_002, identical in
part_001 and part_003). -/
def SAUDAI_INSTRUCTIONS : List Char :=
  ("\nYou are SaudAI, an AI version of Saud Rehman.\n\nSpeak in the first person as \"I\", as if you are Saud.\nTone: friendly, professional, honest, slightly informal when appropriate.\n\nBackground you MUST use:\n- Technical Marketing Manager at NASTP (aerospace & defence ecosystem).\n- Experience in renewable energy, C&I solar, IoT & AI products.\n- Past roles: SkyElectric, Renergy Solutions, Rapidev, Spacedome.\n- Education: MEng Renewable Electrical Engineering, BE Electrical & Electronics (COMSATS).\n- Final year project: wind speed forecasting using Bi-LSTM and Bi-GRU.\n\nGuidelines:\n- Be clear and concise.\n- If you don\x27t know something from Saud\x27s real experience, say that you would \"need to check\" rather than inventing.\n- When asked for advice (career, learning, tools), give practical, step-by-step suggestions.\n").toList

/-- The system role name. -/
def sysRole : List Char := "system".toList

/-- The user role name. -/
def userRole : List Char := "user".toList

/-- The two-turn prompt built by every route: the fixed system persona
followed by the user message. -/
def buildMessages (message : List Char) : List ChatTurn :=
  [⟨sysRole, SAUDAI_INSTRUCTIONS⟩, ⟨userRole, message⟩]

/-- The name of an abort rejection. -/
def abortErrName : List Char := "AbortError".toList

/-- The name of a network-failure rejection. -/
def typeErrName : List Char := "TypeError".toList

/-- The name of a plain thrown Error. -/
def plainErrName : List Char := "Error".toList

/-- The message of the error thrown by `callDeepSeekStream` on a non-OK
response: the backend status and the first 400 characters of its body. -/
def streamNonOkMsg (status : Nat) (body : List Char) : List Char :=
  ("Ollama responded with status ").toList ++ natChars status
    ++ (": ").toList ++ body.take 400

/-- Model of `callDeepSeekStream` (src/unnamed/part_002) as a function of how the
fetch resolves: a non-OK response throws an Error carrying the status and a
truncated body excerpt, an OK response is aggregated by the stream loop, and
fetch rejections propagate. -/
def callDeepSeekStreamOutcome (fr : FetchResult) : CallOutcome :=
  match fr with
  | .response ok status body chunks =>
      if ok then .value (callDeepSeekStreamAgg chunks)
      else .thrown plainErrName (streamNonOkMsg status body)
  | .abortError => .thrown abortErrName []
  | .networkError => .thrown typeErrName ("fetch failed").toList

/-- The gateway 400 reply. -/
def badReqMsg : List Char := "I need a message string to respond to.".toList

/-- The gateway empty-reply substitute (part_002 streaming route). -/
def noReplyMsg : List Char :=
  "I couldn’t generate a response right now. Try again or increase timeout.".toList

/-- The part_002 streaming route 504 reply. -/
def streamTimeoutMsg : List Char :=
  "Request timed out waiting for model (stream). Try increasing SAUDAI_TIMEOUT_MS.".toList

/-- The part_002 streaming route 500 reply. -/
def streamErr500Msg : List Char :=
  "There was an error talking to the model (stream). See server logs.".toList

/-- What a route handler produced: HTTP status, reply string, whether the
outbound backend call was issued, and the prompt it dispatched (if any). -/
structure RouteResult where
  status : Nat
  reply : List Char
  backendCalled : Bool
  sent : Option (List ChatTurn)
deriving DecidableEq, Repr

/-- The part_002 POST /api/saudai handler: validate the message, build the
two-turn prompt, call `callDeepSeekStream`, substitute the no-reply message
for an empty result, and map AbortError to 504 and any other throw to 500. -/
def routeSaudaiStream (message : JsVal) (fr : FetchResult) : RouteResult :=
  match message with
  | .strV s =>
      if s = [] then ⟨400, badReqMsg, false, none⟩
      else
        match callDeepSeekStreamOutcome fr with
        | .value reply =>
            if reply = [] ∨ (trimL reply).length = 0 then
              ⟨200, noReplyMsg, true, some (buildMessages s)⟩
            else ⟨200, reply, true, some (buildMessages s)⟩
        | .thrown name _ =>
            if name = abortErrName then
              ⟨504, streamTimeoutMsg, true, some (buildMessages s)⟩
            else ⟨500, streamErr500Msg, true, some (buildMessages s)⟩
  | _ => ⟨400, badReqMsg, false, none⟩

/-!
## The callOllamaChat revision (src/unnamed/part_003)
-/

/-- The type field key. -/
def typeKey : List Char := "type".toList

/-- The value field key. -/
def valueKey : List Char := "value".toList

/-- The output_text type tag tested by the part_003 extractor. -/
def outputTextTag : List Char := "output_text".toList

/-- Truthiness of an optionally-present JS value (absence is falsy). -/
def jsTruthyOpt (o : Option Json) : Bool :=
  match o with
  | some v => v.truthy
  | none => false

/-- The test `c?.type === "output_text"`. -/
def p3TypeOk (c : Option Json) : Bool :=
  match ojget c typeKey with
  | some (.str t) => decide (t = outputTextTag)
  | _ => false

/-- The selection `typeof c === "string" ? c : null`. -/
def p3StrOf (c : Option Json) : Option Json :=
  match c with
  | some (.str s) => some (.str s)
  | _ => none

/-- The tail of the part_003 else-if chain (output_text, then choices). -/
def extractP3rest (data : Json) : Option Json :=
  match jget data outputTextKey with
  | some (.str s) => some (.str s)
  | _ =>
      match chainChoicesContent data with
      | some w => if w.truthy then some w else none
      | none => none

/-- The part_003 route-level shape probing over a parsed document:
`data.message.content` (string) first, then — if `data.output` is an array
whose first element has a truthy content — the output-array branch (which,
once entered, suppresses all later shapes), then `data.output_text` (string),
then `data.choices[0].message.content` (truthy). -/
def extractP3core (data : Json) : Option Json :=
  match ojget (ojget (some data) msgKey) contentKey with
  | some (.str s) => some (.str s)
  | _ =>
      match jget data outputKey with
      | some (.arr out) =>
          match ojget (oidx0 (some (.arr out))) contentKey with
          | some cval =>
              if cval.truthy then
                let c := oidx0 (some cval)
                let ctext := ojget c textKey
                let ctextval := ojget ctext valueKey
                if p3TypeOk c && jsTruthyOpt (jsOr ctextval ctext) then
                  jsOr ctextval ctext
                else p3StrOf c
              else extractP3rest data
          | none => extractP3rest data
      | _ => extractP3rest data

/-- The part_003 empty-reply substitute. -/
def p3NoReplyMsg : List Char :=
  "I couldn’t generate a response right now. Check model logs or increase timeout.".toList

/-- Reply normalisation of the part_003 route: probe the parsed document,
fall back to the raw body text when the probe produced nothing truthy, and
fall back to the canned message when even that is empty. -/
def extractP3 (parsed : Option Json) (rawText : List Char) : Json :=
  let reply : Option Json :=
    match parsed with
    | some d => extractP3core d
    | none => none
  let reply2 : Option Json :=
    match reply with
    | some v =>
        if v.truthy then some v
        else if rawText ≠ [] then some (.str rawText) else none
    | none => if rawText ≠ [] then some (.str rawText) else none
  match reply2 with
  | some v => if v.truthy then v else .str p3NoReplyMsg
  | none => .str p3NoReplyMsg

/-- The part_003 502 reply: the backend status inside the template literal
(the body excerpt goes to the diagnostic log). -/
def p3BackendErrReply (status : Nat) : List Char :=
  ("Model server error (").toList ++ natChars status ++ (").").toList

/-- The part_003 504 reply. -/
def p3TimeoutMsg : List Char :=
  "Request timed out waiting for model. Try again or increase timeout.".toList

/-- The part_003 500 reply. -/
def p3Err500Msg : List Char :=
  "There was an error talking to the model. See server logs.".toList

/-- What the part_003 handler produced: HTTP status, JSON reply value, the
diagnostic excerpt it logged, whether the backend was called, and the
dispatched prompt. -/
structure P3Result where
  status : Nat
  reply : Json
  diag : List Char
  backendCalled : Bool
  sent : Option (List ChatTurn)

/-- The part_003 POST /api/saudai handler: validate the message, build the
prompt, call `callOllamaChat` (whose result carries ok/status/rawText/parsed),
return 502 with the status — logging a 400-character body excerpt — on a
non-OK response, extract the reply otherwise, and map AbortError to 504 and
any other throw to 500. -/
def routeSaudaiP3 (message : JsVal) (fr : FetchResult) : P3Result :=
  match message with
  | .strV s =>
      if s = [] then ⟨400, .str badReqMsg, [], false, none⟩
      else
        match fr with
        | .response ok status body _ =>
            if ok then
              ⟨200, extractP3 (jsonParse body) body, [], true,
                some (buildMessages s)⟩
            else
              ⟨502, .str (p3BackendErrReply status), body.take 400, true,
                some (buildMessages s)⟩
        | .abortError => ⟨504, .str p3TimeoutMsg, [], true, some (buildMessages s)⟩
        | .networkError => ⟨500, .str p3Err500Msg, [], true, some (buildMessages s)⟩
  | _ => ⟨400, .str badReqMsg, [], false, none⟩

/-!
## The second backend/server.js revision (truthiness-only validation)
-/

mutual

/-- JavaScript string coercion of a JSON value (as performed by `+=` when the
leftover decode of this revision appends a non-string content field). -/
def jsToStringChars : Json → List Char
  | .str s => s
  | .num n =>
      if n < 0 then '-' :: Nat.toDigits 10 n.natAbs else Nat.toDigits 10 n.natAbs
  | .bool true => "true".toList
  | .bool false => "false".toList
  | .null => "null".toList
  | .obj _ => "[object Object]".toList
  | .arr xs => arrToStringChars xs

/-- JavaScript array-to-string coercion: elements joined by commas, with null
elements rendered empty. -/
def arrToStringChars : List Json → List Char
  | [] => []
  | x :: xs =>
      (match x with
        | .null => []
        | y => jsToStringChars y)
        ++ (match xs with
              | [] => []
              | _ :: _ => ',' :: arrToStringChars xs)

end

/-- The final leftover decode of the second backend/server.js revision:
`j.message.content` is appended whenever truthy, with no string type check
(JS coerces it to a string). -/
def streamFinishBk (st : List Char × List Char) : List Char :=
  trimL
    (if trimL st.2 = [] then st.1
     else
       match jsonParse (trimL st.2) with
       | some j =>
           match ojget (ojget (some j) msgKey) contentKey with
           | some v => if v.truthy then st.1 ++ jsToStringChars v else st.1
           | none => st.1
       | none => st.1)

/-- The stream aggregator of the second backend/server.js revision: the loop
is the part_002 loop, but the final leftover decode has no string type
check. -/
def callDeepSeekStreamAggBk (chunks : List (List Char)) : List Char :=
  streamFinishBk (chunks.foldl streamStep ([], []))

/-- The non-OK error message of this revision. -/
def bkNonOkMsg (status : Nat) (body : List Char) : List Char :=
  ("Ollama non-OK ").toList ++ natChars status ++ (": ").toList ++ body.take 400

/-- Model of `callDeepSeekStream` of the second backend/server.js revision as a
function of how the fetch resolves. -/
def callBkStreamOutcome (fr : FetchResult) : CallOutcome :=
  match fr with
  | .response ok status body chunks =>
      if ok then .value (callDeepSeekStreamAggBk chunks)
      else .thrown plainErrName (bkNonOkMsg status body)
  | .abortError => .thrown abortErrName []
  | .networkError => .thrown typeErrName ("fetch failed").toList

/-- This revision's 400 reply. -/
def bkBadReqMsg : List Char := "I need a message string.".toList

/-- This revision's empty-reply substitute. -/
def bkNoReplyMsg : List Char := "No reply (empty).".toList

/-- This revision's 504 reply. -/
def bkTimeoutMsg : List Char :=
  "Request timed out waiting for model (stream).".toList

/-- This revision's 500 reply. -/
def bkErr500Msg : List Char := "Stream error. See server logs.".toList

/-- What this revision's handler produced. -/
structure BkResult where
  status : Nat
  reply : List Char
  backendCalled : Bool
deriving DecidableEq, Repr

/-- The POST /api/saudai handler of the second backend/server.js revision:
its validation is only `if (!message)` — plain truthiness, with no check that
the message is a string — before building the prompt and calling the
streaming aggregator. -/
def routeSaudaiBk (message : JsVal) (fr : FetchResult) : BkResult :=
  if message.truthy = false then ⟨400, bkBadReqMsg, false⟩
  else
    match callBkStreamOutcome fr with
    | .value reply =>
        if reply = [] then ⟨200, bkNoReplyMsg, true⟩
        else ⟨200, reply, true⟩
    | .thrown name _ =>
        if name = abortErrName then ⟨504, bkTimeoutMsg, true⟩
        else ⟨500, bkErr500Msg, true⟩

/-!
## Lemmas: newline splitting and the stream loop
-/

theorem splitNL_ne_nil (l : List Char) : splitNL l ≠ [] := by
  induction l with
  | nil => simp [splitNL]
  | cons c rest ih =>
      unfold splitNL
      cases h : splitNL rest with
      | nil => exact absurd h ih
      | cons a t => by_cases hc : c = '\n' <;> simp [hc]

theorem splitNL_eq_splitCR (l : List Char) :
    splitNL l = (splitCR l).1 ++ [(splitCR l).2] := by
  induction l with
  | nil => rfl
  | cons c rest ih =>
      simp only [splitNL, splitCR]
      cases hr : splitNL rest with
      | nil => exact absurd hr (splitNL_ne_nil rest)
      | cons a t =>
          rw [hr] at ih
          cases hcr : splitCR rest with
          | mk L R =>
              rw [hcr] at ih
              by_cases hc : c = '\n'
              · cases L with
                | nil =>
                    simp only [List.nil_append] at ih
                    injection ih with h2 h3
                    simp [hc, h2, h3]
                | cons b bs =>
                    injection ih with h2 h3
                    simp [hc, h2, h3]
              · cases L with
                | nil =>
                    simp only [List.nil_append] at ih
                    injection ih with h2 h3
                    simp [hc, h2, h3]
                | cons b bs =>
                    injection ih with h2 h3
                    simp [hc, h2, h3]

theorem dropLast_splitNL (l : List Char) :
    (splitNL l).dropLast = (splitCR l).1 := by
  rw [splitNL_eq_splitCR]; exact List.dropLast_concat

theorem getLastD_splitNL (l : List Char) :
    (splitNL l).getLastD [] = (splitCR l).2 := by
  rw [splitNL_eq_splitCR]; simp [List.getLastD_concat]

theorem splitCR_no_nl (l : List Char) (h : '\n' ∉ l) : splitCR l = ([], l) := by
  induction l with
  | nil => rfl
  | cons c rest ih =>
      simp only [List.mem_cons, not_or] at h
      have hc : ¬c = '\n' := fun hc => h.1 hc.symm
      simp only [splitCR, ih h.2, if_neg hc]

theorem splitCR_snd_no_nl (l : List Char) : '\n' ∉ (splitCR l).2 := by
  induction l with
  | nil => simp [splitCR]
  | cons c rest ih =>
      simp only [splitCR]
      by_cases hc : c = '\n'
      · simpa [hc] using ih
      · cases hcr : splitCR rest with
        | mk L R =>
            rw [hcr] at ih
            rw [if_neg hc]
            cases L with
            | nil =>
                simp only [List.mem_cons, not_or]
                exact ⟨fun h => hc h.symm, ih⟩
            | cons b bs => simpa using ih

/-- Prepend a pending remainder onto the first of a list of lines. -/
def glue (p : List Char) : List (List Char) → List (List Char)
  | [] => []
  | h :: t => (p ++ h) :: t

theorem splitCR_append (x y : List Char) :
    splitCR (x ++ y) =
      ((splitCR x).1 ++ glue (splitCR x).2 (splitCR y).1,
       if (splitCR y).1 = [] then (splitCR x).2 ++ (splitCR y).2
       else (splitCR y).2) := by
  induction x with
  | nil =>
      cases hy : (splitCR y).1 with
      | nil => simp [splitCR, glue, hy, Prod.ext_iff]
      | cons h t => simp [splitCR, glue, hy, Prod.ext_iff]
  | cons c x' ih =>
      rw [List.cons_append]
      simp only [splitCR]
      rw [ih]
      by_cases hc : c = '\n'
      · cases hy : (splitCR y).1 with
        | nil => simp [hc, glue, hy]
        | cons h t => simp [hc, glue, hy]
      · rw [if_neg hc, if_neg hc]
        cases hx : splitCR x' with
        | mk XL XR =>
            cases XL with
            | nil =>
                cases hy : (splitCR y).1 with
                | nil => simp [hy, glue]
                | cons h t => simp [hy, glue]
            | cons b bs =>
                cases hy : (splitCR y).1 with
                | nil => simp [hy, glue]
                | cons h t => simp [hy, glue]

theorem processLine_eq_append (acc line : List Char) :
    processLine acc line = acc ++ processLine [] line := by
  unfold processLine
  by_cases h : trimL line = []
  · simp [h]
  · cases hj : jsonParse (trimL line) <;> simp [h, hj]

theorem foldl_processLine_append (ls : List (List Char)) (acc : List Char) :
    ls.foldl processLine acc = acc ++ ls.foldl processLine [] := by
  induction ls generalizing acc with
  | nil => simp
  | cons l ls ih =>
      rw [List.foldl_cons, List.foldl_cons, ih (processLine acc l),
          ih (processLine [] l), processLine_eq_append acc l]
      simp

theorem streamFold_inv (chunks : List (List Char)) (acc buf : List Char)
    (h : '\n' ∉ buf) :
    chunks.foldl streamStep (acc, buf) =
      (acc ++ ((splitCR (buf ++ chunks.flatten)).1.foldl processLine []),
       (splitCR (buf ++ chunks.flatten)).2) := by
  induction chunks generalizing acc buf with
  | nil => simp [splitCR_no_nl _ h]
  | cons ch rest ih =>
      have hstep : streamStep (acc, buf) ch =
          ((splitCR (buf ++ ch)).1.foldl processLine acc,
           (splitCR (buf ++ ch)).2) := by
        show ((splitNL (buf ++ ch)).dropLast.foldl processLine acc,
              (splitNL (buf ++ ch)).getLastD []) = _
        rw [dropLast_splitNL, getLastD_splitNL]
      have hsp1 : splitCR ((buf ++ ch) ++ rest.flatten) =
          ((splitCR (buf ++ ch)).1 ++
             (splitCR ((splitCR (buf ++ ch)).2 ++ rest.flatten)).1,
           (splitCR ((splitCR (buf ++ ch)).2 ++ rest.flatten)).2) := by
        rw [splitCR_append (buf ++ ch) rest.flatten,
            splitCR_append ((splitCR (buf ++ ch)).2) rest.flatten,
            splitCR_no_nl _ (splitCR_snd_no_nl (buf ++ ch))]
        simp
      rw [List.foldl_cons, hstep, ih _ _ (splitCR_snd_no_nl _),
          List.flatten_cons, ← List.append_assoc, hsp1]
      rw [Prod.ext_iff]
      refine ⟨?_, rfl⟩
      show (splitCR (buf ++ ch)).1.foldl processLine acc ++ _ = _
      rw [foldl_processLine_append _ acc, List.foldl_append,
          foldl_processLine_append _ ((splitCR (buf ++ ch)).1.foldl processLine []),
          List.append_assoc]

theorem streamFinish_eq (st : List Char × List Char) :
    streamFinish st = trimL (processLine st.1 st.2) := rfl

theorem foldl_decode_filter (ls : List (List Char)) (acc : List Char) :
    (((ls.map trimL).filter (fun l => l ≠ [])).foldl decodeTrimmedLine acc)
      = ls.foldl processLine acc := by
  induction ls generalizing acc with
  | nil => rfl
  | cons l ls ih =>
      rw [List.map_cons, List.filter_cons]
      by_cases h : trimL l = []
      · rw [if_neg (by simp [h]), ih, List.foldl_cons]
        have hp : processLine acc l = acc := by
          unfold processLine; simp [h]
        rw [hp]
      · rw [if_pos (by simp [h]), List.foldl_cons, List.foldl_cons, ih]
        have hp : decodeTrimmedLine acc (trimL l) = processLine acc l := by
          unfold processLine decodeTrimmedLine
          simp [h]
        rw [hp]

theorem agg_eq_onepass (chunks : List (List Char)) :
    callDeepSeekStreamAgg chunks
      = trimL ((splitNL chunks.flatten).foldl processLine []) := by
  unfold callDeepSeekStreamAgg
  rw [streamFold_inv chunks [] [] (by simp), streamFinish_eq,
      splitNL_eq_splitCR, List.foldl_append]
  simp only [List.nil_append, List.foldl_cons, List.foldl_nil]


theorem splitNL_no_nl (l : List Char) (h : '\n' ∉ l) : splitNL l = [l] := by
  rw [splitNL_eq_splitCR, splitCR_no_nl l h]
  rfl

theorem splitNL_append_nl (l t : List Char) (h : '\n' ∉ l) :
    splitNL (l ++ '\n' :: t) = l :: splitNL t := by
  induction l with
  | nil =>
      simp only [List.nil_append, splitNL]
      cases ht : splitNL t with
      | nil => exact absurd ht (splitNL_ne_nil t)
      | cons a t' => simp
  | cons c l' ih =>
      simp only [List.mem_cons, not_or] at h
      have hc : ¬c = '\n' := fun hc => h.1 hc.symm
      simp only [List.cons_append, splitNL, List.append_eq]
      rw [ih h.2]
      simp [hc]

theorem splitNL_joinNL (lines : List (List Char))
    (h : ∀ l ∈ lines, '\n' ∉ l) (hne : lines ≠ []) :
    splitNL (joinNL lines) = lines := by
  induction lines with
  | nil => exact absurd rfl hne
  | cons l ls ih =>
      cases ls with
      | nil => exact splitNL_no_nl l (h l (by simp))
      | cons l2 ls' =>
          show splitNL (l ++ '\n' :: joinNL (l2 :: ls')) = _
          rw [splitNL_append_nl _ _ (h l (by simp)),
              ih (fun x hx => h x (List.mem_cons_of_mem _ hx)) (by simp)]

theorem agg_join (lines : List (List Char)) (h : ∀ l ∈ lines, '\n' ∉ l) :
    callDeepSeekStreamAgg [joinNL lines] = trimL (lines.foldl processLine []) := by
  cases lines with
  | nil => rfl
  | cons l ls =>
      rw [agg_eq_onepass]
      have hf : ([joinNL (l :: ls)]).flatten = joinNL (l :: ls) := by simp
      rw [hf, splitNL_joinNL _ h (by simp)]

/-- Text contributed by a single raw line (trim, decode, extract). -/
def lineContrib (line : List Char) : List Char := processLine [] line

theorem foldl_processLine_flatten (lines : List (List Char)) :
    lines.foldl processLine [] = (lines.map lineContrib).flatten := by
  induction lines with
  | nil => rfl
  | cons l ls ih =>
      rw [List.foldl_cons, foldl_processLine_append, ih]
      simp [lineContrib]

theorem processLine_skip (acc bad : List Char)
    (h : jsonParse (trimL bad) = none) : processLine acc bad = acc := by
  unfold processLine
  by_cases ht : trimL bad = [] <;> simp [ht, h]

theorem dropWhile_idem (p : Char → Bool) (l : List Char) :
    (l.dropWhile p).dropWhile p = l.dropWhile p := by
  induction l with
  | nil => rfl
  | cons a l ih =>
      by_cases h : p a
      · simp [List.dropWhile_cons, h, ih]
      · simp [List.dropWhile_cons, h]

theorem dropWhile_of_pref (p : Char → Bool) (z y : List Char)
    (hpre : z <+: y) (hy : y.dropWhile p = y) : z.dropWhile p = z := by
  cases z with
  | nil => rfl
  | cons a z' =>
      obtain ⟨t, rfl⟩ := hpre
      rw [List.cons_append, List.dropWhile_cons] at hy
      by_cases h : p a
      · rw [if_pos h] at hy
        have hle : (List.dropWhile p (z' ++ t)).length ≤ (z' ++ t).length :=
          (List.dropWhile_sublist p).length_le
        rw [hy] at hle
        simp at hle
      · rw [List.dropWhile_cons, if_neg h]

theorem dropEndWs_pref (y : List Char) : dropEndWs y <+: y := by
  rw [← List.reverse_suffix]
  unfold dropEndWs
  rw [List.reverse_reverse]
  exact List.dropWhile_suffix isWsChar

theorem dropEndWs_idem (y : List Char) : dropEndWs (dropEndWs y) = dropEndWs y := by
  unfold dropEndWs
  rw [List.reverse_reverse, dropWhile_idem]

theorem trimL_idem (l : List Char) : trimL (trimL l) = trimL l := by
  unfold trimL
  have h1 : (l.dropWhile isWsChar).dropWhile isWsChar = l.dropWhile isWsChar :=
    dropWhile_idem isWsChar l
  have h2 : (dropEndWs (l.dropWhile isWsChar)).dropWhile isWsChar
      = dropEndWs (l.dropWhile isWsChar) :=
    dropWhile_of_pref isWsChar _ _ (dropEndWs_pref _) h1
  rw [h2, dropEndWs_idem]

/-- The thinking field key (emitted by some backends, ignored by the code). -/
def thinkingKey : List Char := "thinking".toList

/-- The done flag key (emitted by the backend, ignored by the code). -/
def doneKey : List Char := "done".toList

theorem objGet_set_self (f : List (List Char × Json)) (k : List Char) (v : Json) :
    objGet (objSet f k v) k = some v := by
  induction f with
  | nil => simp [objSet, objGet]
  | cons a f ih =>
      obtain ⟨ka, wa⟩ := a
      show objGet ((ka, wa) :: (f ++ [(k, v)])) k = some v
      unfold objGet
      rw [show f ++ [(k, v)] = objSet f k v from rfl, ih]

theorem objGet_set_other (f : List (List Char × Json)) (k k' : List Char)
    (v : Json) (h : k' ≠ k) : objGet (objSet f k v) k' = objGet f k' := by
  induction f with
  | nil =>
      show objGet [(k, v)] k' = objGet [] k'
      have hk : ¬k = k' := fun hh => h hh.symm
      simp [objGet, hk]
  | cons a f ih =>
      obtain ⟨ka, wa⟩ := a
      show objGet ((ka, wa) :: (f ++ [(k, v)])) k' = objGet ((ka, wa) :: f) k'
      unfold objGet
      rw [show f ++ [(k, v)] = objSet f k v from rfl, ih]

theorem fragText_ignores_thinking_done
    (mf other : List (List Char × Json)) (t d : Json) :
    fragText (.obj (objSet (objSet other msgKey
        (.obj (objSet mf thinkingKey t))) doneKey d))
      = fragText (.obj (objSet other msgKey (.obj mf))) := by
  unfold fragText
  have h1 : objGet (objSet (objSet other msgKey
      (.obj (objSet mf thinkingKey t))) doneKey d) msgKey
        = some (.obj (objSet mf thinkingKey t)) := by
    rw [objGet_set_other _ _ _ _ (by decide), objGet_set_self]
  have h2 : objGet (objSet other msgKey (.obj mf)) msgKey = some (.obj mf) :=
    objGet_set_self _ _ _
  simp only [ojget, Option.some_bind, jget, h1, h2]
  rw [objGet_set_other _ _ _ _ (by decide)]

/-- First defined value among a list of optional shape matches. -/
def firstSome : List (Option Json) → Option Json
  | [] => none
  | some v :: _ => some v
  | none :: rest => firstSome rest

/-- Spec-worded shape matcher: a direct message/content field holding a
string. -/
def matchMessageContent (j : Json) : Option Json :=
  match ojget (ojget (some j) msgKey) contentKey with
  | some (.str s) => some (.str s)
  | _ => none

/-- Spec-worded shape matcher: a generic output-text field holding a
string. -/
def matchOutputText (j : Json) : Option Json :=
  match jget j outputTextKey with
  | some (.str s) => some (.str s)
  | _ => none

/-- Spec-worded shape matcher: the nested output-array-of-content-items text,
accepted when truthy. -/
def matchOutputArr (j : Json) : Option Json :=
  match chainOutputText j with
  | some v => if v.truthy then some v else none
  | none => none

/-- Spec-worded shape matcher: choices/message/content, accepted when
truthy. -/
def matchChoices (j : Json) : Option Json :=
  match chainChoicesContent j with
  | some v => if v.truthy then some v else none
  | none => none

/-- The claim's fixed-order extractor, written from the spec's words: try the
four known shapes in the stated order, first match wins, raw decoded body
as the fallback (also for an unparsable body). -/
def specOrderedExtract (text : List Char) : Json :=
  match jsonParse text with
  | none => .str text
  | some j =>
      (firstSome [matchMessageContent j, matchOutputText j,
                  matchOutputArr j, matchChoices j]).getD (.str text)

/-- C8 (amended): in non-streaming mode, the `callDeepSeekSync` extractor is
exactly the claimed fixed-order matcher chain — direct message/content, then
output_text, then the nested output array, then choices — with first match
winning and the raw decoded body as fallback.  (The route-level extractor of
the callOllamaChat revision deviates: see the counterexample.) -/
theorem c8_sync_shape_order (text : List Char) :
    callDeepSeekSyncExtract text = specOrderedExtract text := by
  unfold callDeepSeekSyncExtract specOrderedExtract
  cases hj : jsonParse text with
  | none => rfl
  | some j =>
      simp only [matchMessageContent, matchOutputText, matchOutputArr,
        matchChoices]
      repeat' split
      all_goals simp_all [firstSome]

/-- C1: splitting a multi-line NDJSON payload into chunks at arbitrary
boundaries and feeding the chunks through the incremental stream decoder
(rolling buffer, split off complete lines, decode each, keep the remainder,
one final decode of the residual buffer) yields exactly the text produced by
decoding the whole payload line by line in one pass (the `callDeepSeekSync`
NDJSON branch applied to the concatenation of the chunks). -/
theorem c1_stream_decode_fragmentation_invariant (chunks : List (List Char)) :
    callDeepSeekStreamAgg chunks = syncNdjsonText chunks.flatten := by
  rw [agg_eq_onepass]
  unfold syncNdjsonText
  rw [foldl_decode_filter]

/-- C2: a malformed (non-JSON-decodable) line between well-formed NDJSON
lines is silently discarded: the accumulated reply is the one the stream
without that line produces, namely exactly the fragment texts of the
surrounding lines in their original order (concatenated and trimmed). -/
theorem c2_malformed_line_transparent (pre post : List (List Char))
    (bad : List Char)
    (hpre : ∀ l ∈ pre, '\n' ∉ l) (hpost : ∀ l ∈ post, '\n' ∉ l)
    (hbadnl : '\n' ∉ bad) (hbad : jsonParse (trimL bad) = none) :
    callDeepSeekStreamAgg [joinNL (pre ++ bad :: post)]
      = callDeepSeekStreamAgg [joinNL (pre ++ post)]
    ∧ callDeepSeekStreamAgg [joinNL (pre ++ bad :: post)]
      = trimL (((pre ++ post).map lineContrib).flatten) := by
  have hall : ∀ l ∈ pre ++ bad :: post, '\n' ∉ l := by
    intro l hl
    rcases List.mem_append.1 hl with h | h
    · exact hpre l h
    · rcases List.mem_cons.1 h with rfl | h
      · exact hbadnl
      · exact hpost l h
  have hall2 : ∀ l ∈ pre ++ post, '\n' ∉ l := by
    intro l hl
    rcases List.mem_append.1 hl with h | h
    · exact hpre l h
    · exact hpost l h
  have key : callDeepSeekStreamAgg [joinNL (pre ++ bad :: post)]
      = callDeepSeekStreamAgg [joinNL (pre ++ post)] := by
    rw [agg_join _ hall, agg_join _ hall2]
    congr 1
    rw [List.foldl_append, List.foldl_append, List.foldl_cons,
        processLine_skip _ _ hbad]
  refine ⟨key, ?_⟩
  rw [key, agg_join _ hall2, foldl_processLine_flatten]

/-- A well-formed NDJSON fragment line carrying the text of the spec
scenario's first delta. -/
def wfLine1 : List Char :=
  "\x7b\"message\":\x7b\"content\":\"I am \"\x7d,\"done\":false\x7d".toList

/-- A well-formed NDJSON fragment line carrying a final delta. -/
def wfLine2 : List Char :=
  "\x7b\"message\":\x7b\"content\":\"a Technical \"\x7d,\"done\":true\x7d".toList

/-- A malformed transport line. -/
def badLine : List Char := "garbage%%".toList

/-- Witness for C2 at a concrete stream: the hypothesis instances and the
conclusion of the theorem at `wfLine1`, `badLine`, `wfLine2`. -/
theorem c2_malformed_line_transparent_witness :
    jsonParse (trimL badLine) = none
    ∧ callDeepSeekStreamAgg [joinNL ([wfLine1] ++ badLine :: [wfLine2])]
        = callDeepSeekStreamAgg [joinNL ([wfLine1] ++ [wfLine2])] :=
  ⟨rfl,
   (c2_malformed_line_transparent [wfLine1] [wfLine2] badLine
     (by decide) (by decide) (by decide) rfl).1⟩

/-- C3 counterexample: in the part_002 streaming revision, a backend response
with non-success status 500 makes the route return HTTP 500 (the generic
failure reply), not 502 — the thrown Error is not distinguished from
unexpected failures. -/
theorem c3_counterexample :
    routeSaudaiStream (.strV ("hi".toList))
        (.response false 500 ("boom".toList) [])
      = ⟨500, streamErr500Msg, true, some (buildMessages ("hi".toList))⟩
    ∧ (500 : Nat) ≠ 502 := by
  constructor
  · unfold routeSaudaiStream callDeepSeekStreamOutcome
    simp
    decide
  · decide

/-- C3 (amended): in the callOllamaChat revision (part_003) a non-success
backend status yields 502 with the status in the reply and the first 400
characters of the body as the logged diagnostic; in the part_002 streaming
revision the same condition raises an Error carrying the status and a
400-character excerpt, which the route surfaces as HTTP 500. -/
theorem c3_backend_error_amended (s : List Char) (status : Nat)
    (body : List Char) (chunks : List (List Char)) (hs : s ≠ []) :
    routeSaudaiP3 (.strV s) (.response false status body chunks)
      = ⟨502, .str (p3BackendErrReply status), body.take 400, true,
          some (buildMessages s)⟩
    ∧ callDeepSeekStreamOutcome (.response false status body chunks)
      = .thrown plainErrName (streamNonOkMsg status body)
    ∧ (routeSaudaiStream (.strV s)
        (.response false status body chunks)).status = 500 := by
  refine ⟨?_, ?_, ?_⟩
  · unfold routeSaudaiP3
    simp [hs]
  · unfold callDeepSeekStreamOutcome
    simp
  · unfold routeSaudaiStream callDeepSeekStreamOutcome
    simp [hs]
    rw [if_neg (by decide : ¬plainErrName = abortErrName)]

/-- Witness for C3 at a concrete request and backend response. -/
theorem c3_backend_error_amended_witness :
    ("hi".toList ≠ [])
    ∧ routeSaudaiP3 (.strV ("hi".toList))
          (.response false 500 ("boom".toList) [])
        = ⟨502, .str (p3BackendErrReply 500), ("boom".toList).take 400, true,
            some (buildMessages ("hi".toList))⟩ :=
  ⟨by decide,
   (c3_backend_error_amended ("hi".toList) 500 ("boom".toList) [] (by decide)).1⟩

/-- C4: when the cancellation timer aborts the in-flight call (the fetch
rejects with AbortError, including before any bytes arrive), the part_002
route returns 504 with the timeout reply; and 504 is returned in no other
outcome — network failure, backend error status, and empty-success all
surface differently. -/
theorem c4_timeout_classified (s : List Char) (hs : s ≠ []) :
    routeSaudaiStream (.strV s) .abortError
      = ⟨504, streamTimeoutMsg, true, some (buildMessages s)⟩
    ∧ (routeSaudaiStream (.strV s) .networkError).status ≠ 504
    ∧ (∀ (status : Nat) (body : List Char) (chunks : List (List Char)),
        (routeSaudaiStream (.strV s)
          (.response false status body chunks)).status ≠ 504)
    ∧ (∀ chunks, trimL (callDeepSeekStreamAgg chunks) = [] →
        (routeSaudaiStream (.strV s)
          (.response true 200 [] chunks)).status = 200) := by
  refine ⟨?_, ?_, ?_, ?_⟩
  · unfold routeSaudaiStream callDeepSeekStreamOutcome
    simp [hs]
  · unfold routeSaudaiStream callDeepSeekStreamOutcome
    simp [hs]
    rw [if_neg (by decide : ¬typeErrName = abortErrName)]
    simp
  · intro status body chunks
    unfold routeSaudaiStream callDeepSeekStreamOutcome
    simp [hs]
    rw [if_neg (by decide : ¬plainErrName = abortErrName)]
    simp
  · intro chunks hch
    unfold routeSaudaiStream callDeepSeekStreamOutcome
    simp [hs]
    have h2 : callDeepSeekStreamAgg chunks = []
        ∨ trimL (callDeepSeekStreamAgg chunks) = [] := Or.inr hch
    rw [if_pos h2]

/-- Witness for C4 at a concrete request. -/
theorem c4_timeout_classified_witness :
    ("hi".toList ≠ [])
    ∧ routeSaudaiStream (.strV ("hi".toList)) .abortError
        = ⟨504, streamTimeoutMsg, true, some (buildMessages ("hi".toList))⟩ :=
  ⟨by decide, (c4_timeout_classified ("hi".toList) (by decide)).1⟩

/-- C5 counterexample: the second backend/server.js revision validates only
truthiness, so a non-string truthy message (the number 1) is not rejected:
the route answers 200 and the backend call is issued, refuting the claim
that every non-string message gets 400 without a backend call. -/
theorem c5_counterexample :
    (JsVal.numV 1).isString = false
    ∧ routeSaudaiBk (.numV 1) (.response true 200 [] [])
        = ⟨200, bkNoReplyMsg, true⟩
    ∧ (routeSaudaiBk (.numV 1) (.response true 200 [] [])).status ≠ 400
    ∧ (routeSaudaiBk (.numV 1) (.response true 200 [] [])).backendCalled
        = true := by
  refine ⟨rfl, ?_, ?_, ?_⟩ <;> decide

/-- C5 (amended): in the revisions that check `typeof message !== "string"`
(the part_002 streaming route and the part_003 route), every message that is
not a string, or is the empty string, is rejected with 400 and the backend
call is never issued; the second backend/server.js revision checks only
truthiness and lets non-string truthy messages through. -/
theorem c5_invalid_message_amended (m : JsVal) (fr : FetchResult)
    (hm : m.isString = false ∨ m = .strV []) :
    (routeSaudaiStream m fr).status = 400
    ∧ (routeSaudaiStream m fr).backendCalled = false
    ∧ (routeSaudaiP3 m fr).status = 400
    ∧ (routeSaudaiP3 m fr).backendCalled = false := by
  rcases hm with hm | rfl
  · cases m <;> simp_all [routeSaudaiStream, routeSaudaiP3, JsVal.isString]
  · simp [routeSaudaiStream, routeSaudaiP3]

/-- Witness for C5 at a concrete invalid message. -/
theorem c5_invalid_message_amended_witness :
    ((JsVal.numV 7).isString = false ∨ JsVal.numV 7 = .strV [])
    ∧ (routeSaudaiStream (.numV 7) .abortError).status = 400
    ∧ (routeSaudaiStream (.numV 7) .abortError).backendCalled = false :=
  ⟨Or.inl rfl,
   (c5_invalid_message_amended (.numV 7) .abortError (Or.inl rfl)).1,
   (c5_invalid_message_amended (.numV 7) .abortError (Or.inl rfl)).2.1⟩

/-- C6: for every non-empty string message, the prompt dispatched to the
backend (in the part_002 and part_003 revisions alike) is exactly the
two-turn list with the fixed system persona first and the user turn carrying
the message verbatim last. -/
theorem c6_two_turn_prompt (s : List Char) (fr : FetchResult) (hs : s ≠ []) :
    (routeSaudaiStream (.strV s) fr).sent = some (buildMessages s)
    ∧ (routeSaudaiP3 (.strV s) fr).sent = some (buildMessages s)
    ∧ buildMessages s = [⟨sysRole, SAUDAI_INSTRUCTIONS⟩, ⟨userRole, s⟩]
    ∧ (buildMessages s).length = 2 := by
  refine ⟨?_, ?_, rfl, rfl⟩
  · unfold routeSaudaiStream
    cases hc : callDeepSeekStreamOutcome fr with
    | value reply => simp [hs, hc, apply_ite RouteResult.sent]
    | thrown name msg => simp [hs, hc, apply_ite RouteResult.sent]
  · unfold routeSaudaiP3
    cases fr with
    | response ok status body chunks => simp [hs, apply_ite P3Result.sent]
    | abortError => simp [hs]
    | networkError => simp [hs]

/-- Witness for C6 at a concrete request. -/
theorem c6_two_turn_prompt_witness :
    ("hello".toList ≠ [])
    ∧ (routeSaudaiStream (.strV ("hello".toList)) .abortError).sent
        = some (buildMessages ("hello".toList)) :=
  ⟨by decide, (c6_two_turn_prompt ("hello".toList) .abortError (by decide)).1⟩

/-- C7: the streaming aggregator's result carries no leading or trailing
whitespace (it is a fixed point of trimming); and when the trimmed result is
empty the part_002 route still answers 200, substituting the user-facing
no-reply message. -/
theorem c7_trimmed_and_empty_is_success :
    (∀ chunks, trimL (callDeepSeekStreamAgg chunks) = callDeepSeekStreamAgg chunks)
    ∧ (∀ (s : List Char) (chunks : List (List Char)), s ≠ [] →
        trimL (callDeepSeekStreamAgg chunks) = [] →
        routeSaudaiStream (.strV s) (.response true 200 [] chunks)
          = ⟨200, noReplyMsg, true, some (buildMessages s)⟩) := by
  have htr : ∀ chunks,
      trimL (callDeepSeekStreamAgg chunks) = callDeepSeekStreamAgg chunks := by
    intro chunks
    unfold callDeepSeekStreamAgg streamFinish
    exact trimL_idem _
  refine ⟨htr, ?_⟩
  intro s chunks hs he
  have he' : callDeepSeekStreamAgg chunks = [] := by rw [← htr chunks, he]
  unfold routeSaudaiStream callDeepSeekStreamOutcome
  simp [hs, he']

/-- Witness for C7 at the empty stream. -/
theorem c7_trimmed_and_empty_is_success_witness :
    trimL (callDeepSeekStreamAgg []) = []
    ∧ routeSaudaiStream (.strV ("hi".toList)) (.response true 200 [] [])
        = ⟨200, noReplyMsg, true, some (buildMessages ("hi".toList))⟩ :=
  ⟨rfl,
   c7_trimmed_and_empty_is_success.2 ("hi".toList) [] (by decide) rfl⟩

/-- A backend document matching both the output_text shape (with text A) and
the nested output-array shape (with text B). -/
def c8doc : Json :=
  .obj [(outputTextKey, .str ("A".toList)),
        (outputKey, .arr [.obj [(contentKey,
          .arr [.obj [(typeKey, .str outputTextTag),
                      (textKey, .str ("B".toList))]])]])]

/-- C8 counterexample: on a document matching both the output_text and the
output-array shapes, the part_003 route extractor returns the output-array
text while the claimed fixed order returns the output_text — so the claimed
order does not describe that revision's non-streaming extractor. -/
theorem c8_counterexample :
    extractP3 (some c8doc) ("raw".toList) = .str ("B".toList)
    ∧ (firstSome [matchMessageContent c8doc, matchOutputText c8doc,
        matchOutputArr c8doc, matchChoices c8doc]).getD (.str ("raw".toList))
        = .str ("A".toList)
    ∧ extractP3 (some c8doc) ("raw".toList)
        ≠ (firstSome [matchMessageContent c8doc, matchOutputText c8doc,
            matchOutputArr c8doc, matchChoices c8doc]).getD
              (.str ("raw".toList)) := by
  refine ⟨rfl, rfl, ?_⟩
  intro h
  rw [(rfl : extractP3 (some c8doc) ("raw".toList) = .str ("B".toList))] at h
  rw [(rfl : (firstSome [matchMessageContent c8doc, matchOutputText c8doc,
      matchOutputArr c8doc, matchChoices c8doc]).getD (.str ("raw".toList))
        = .str ("A".toList))] at h
  injection h with h2
  exact absurd h2 (by decide)

/-- C9: the accumulated streaming reply depends only on the per-line
message/content extraction — the thinking field and the done flag never
contribute: (a) setting or changing message.thinking and done on a fragment
object leaves its extracted text unchanged, and (b) any two streams whose
lines have identical per-line contributions aggregate to identical
replies (stream end is byte-stream exhaustion; done is never inspected). -/
theorem c9_thinking_done_no_effect :
    (∀ (mf other : List (List Char × Json)) (t d : Json),
      fragText (.obj (objSet (objSet other msgKey
          (.obj (objSet mf thinkingKey t))) doneKey d))
        = fragText (.obj (objSet other msgKey (.obj mf))))
    ∧ (∀ lines1 lines2 : List (List Char),
        (∀ l ∈ lines1, '\n' ∉ l) → (∀ l ∈ lines2, '\n' ∉ l) →
        lines1.map lineContrib = lines2.map lineContrib →
        callDeepSeekStreamAgg [joinNL lines1]
          = callDeepSeekStreamAgg [joinNL lines2]) := by
  constructor
  · exact fragText_ignores_thinking_done
  · intro l1 l2 h1 h2 hmap
    rw [agg_join _ h1, agg_join _ h2, foldl_processLine_flatten,
        foldl_processLine_flatten, hmap]

/-- A fragment line with a thinking field and done false. -/
def lineThinking : List Char :=
  "\x7b\"message\":\x7b\"content\":\"hi\",\"thinking\":\"ZZ\"\x7d,\"done\":false\x7d".toList

/-- The same content with no thinking field and done true. -/
def lineDone : List Char :=
  "\x7b\"message\":\x7b\"content\":\"hi\"\x7d,\"done\":true\x7d".toList

/-- Witness for C9 at two concrete streams differing only in thinking/done. -/
theorem c9_thinking_done_no_effect_witness :
    [lineThinking].map lineContrib = [lineDone].map lineContrib
    ∧ callDeepSeekStreamAgg [joinNL [lineThinking]]
        = callDeepSeekStreamAgg [joinNL [lineDone]] :=
  ⟨rfl,
   c9_thinking_done_no_effect.2 [lineThinking] [lineDone]
     (by decide) (by decide) rfl⟩

/-- A pretty-printed single JSON document that contains a newline followed by
an opening brace. -/
def c10pretty : List Char :=
  "\x7b\"message\":\n\x7b\"content\":\"hi\"\x7d\x7d".toList

/-- C10: the non-streaming body is routed to the NDJSON line-by-line branch
iff the content type contains "ndjson" or the body contains a newline
followed by an opening brace; consequently a pretty-printed single JSON
document containing that substring is parsed line by line (yielding the empty
string here) instead of by single-document shape extraction (which would
yield its message content). -/
theorem c10_ndjson_branch_condition :
    (∀ contentType text : List Char,
      (callDeepSeekSyncBody contentType text).1
        = (includesSub contentType ndjsonPat || includesSub text nlBracePat))
    ∧ jsonParse c10pretty
        = some (.obj [(msgKey, .obj [(contentKey, .str ("hi".toList))])])
    ∧ callDeepSeekSyncBody [] c10pretty = (true, .str [])
    ∧ callDeepSeekSyncExtract c10pretty = .str ("hi".toList) := by
  refine ⟨?_, rfl, rfl, rfl⟩
  intro ct text
  unfold callDeepSeekSyncBody
  by_cases h : (includesSub ct ndjsonPat || includesSub text nlBracePat) = true
  · rw [if_pos h, h]
  · rw [if_neg h]
    simp only [Bool.not_eq_true] at h
    rw [h]
